import Mathlib

/-!
# Verification of the raft-cluster consensus engine

Shallow embedding of the Raft engine of `raft-cluster/src/raft/` (files
`log.rs`, `node.rs`, `engine.rs`, `leader_election.rs`, `log_replication.rs`).

Machine integers (`u64`) are modelled as `Nat` (no arithmetic in the source
can overflow on the inputs considered; the source uses `saturating_sub` where
subtraction could underflow, modelled with `Nat` truncated subtraction which
agrees with it).  Byte vectors (`Vec<u8>`) are modelled as `String` — their
contents are only ever built and carried around, never inspected.  Hash maps
(`HashMap<String, u64>`) are modelled as association lists with
insert-or-replace and update-if-present operations mirroring the exact
`insert` / `get_mut` calls of the source.  The two `Instant`-valued timer
fields of `RaftNode` (`heartbeat_timeout`, `election_timeout`) are wall-clock
values and are not part of the model; no claim below concerns them.
-/

/-- Source `pb::LogEntry` (proto message, fields from `proto` / usage in the source). -/
structure LogEntry where
  term : Nat
  index : Nat
  data : String
  entry_type : String
  key : String
deriving DecidableEq, Repr

/-- Source `raft/log.rs`: `RaftLog`. -/
structure RaftLog where
  entities : List LogEntry
  commit_index : Nat
  last_applied : Nat
deriving DecidableEq, Repr

namespace RaftLog

/-- Source `raft/log.rs`: `RaftLog::new`. -/
def new : RaftLog := { entities := [], commit_index := 0, last_applied := 0 }

/-- Source `raft/log.rs`: `last_log_index` — `entities.last().map(|e| e.index).unwrap_or(0)`. -/
def last_log_index (l : RaftLog) : Nat :=
  match l.entities.getLast? with
  | some e => e.index
  | none => 0

/-- Source `raft/log.rs`: `last_log_term` — `entities.last().map(|e| e.term).unwrap_or(0)`. -/
def last_log_term (l : RaftLog) : Nat :=
  match l.entities.getLast? with
  | some e => e.term
  | none => 0

/-- Source `raft/log.rs`: `append_entry` — `entities.push(entry)`. -/
def append_entry (l : RaftLog) (e : LogEntry) : RaftLog :=
  { l with entities := l.entities ++ [e] }

/-- Source `raft/log.rs`: `get_entries_from` — all entries with `entry.index >= start_index`. -/
def get_entries_from (l : RaftLog) (start_index : Nat) : List LogEntry :=
  l.entities.filter (fun e => start_index ≤ e.index)

/-- Source `raft/log.rs`: `get_term_at` — `Some(0)` at index `0`, else the term of the
first entry with the given index. -/
def get_term_at (l : RaftLog) (index : Nat) : Option Nat :=
  if index = 0 then some 0
  else (l.entities.find? (fun e => e.index = index)).map (·.term)

/-- Source `raft/log.rs`: `get_entry_at` — the first entry with the given index. -/
def get_entry_at (l : RaftLog) (index : Nat) : Option LogEntry :=
  l.entities.find? (fun e => e.index = index)

/-- Source `raft/log.rs`: `truncate_from` — `entities.retain(|entry| entry.index < start_index)`. -/
def truncate_from (l : RaftLog) (start_index : Nat) : RaftLog :=
  { l with entities := l.entities.filter (fun e => e.index < start_index) }

end RaftLog

/-- Source `raft/node.rs`: `NodeRole`. -/
inductive NodeRole where
  | Follower
  | Candidate
  | Leader
deriving DecidableEq, Repr

/-- Source `raft/node.rs`: `RaftNode`, minus the two wall-clock timer fields
(`heartbeat_timeout`, `election_timeout`); `state_machine` is the
`ConfigStateMachine` of `raft/state_machine.rs`, a map from string keys to
string values. -/
structure RaftNode where
  node_id : String
  current_term : Nat
  voted_for : Option String
  log : RaftLog
  role : NodeRole
  leader_id : Option String
  next_index : List (String × Nat)
  match_index : List (String × Nat)
  state_machine : List (String × String)
  peers : List String
deriving DecidableEq, Repr

/-- Source `HashMap::insert`: replace the value at the key if present, otherwise add
the binding. -/
def alistInsert (m : List (String × Nat)) (k : String) (v : Nat) : List (String × Nat) :=
  match m with
  | [] => [(k, v)]
  | (k', v') :: rest => if k' = k then (k, v) :: rest else (k', v') :: alistInsert rest k v

/-- Source `HashMap::get_mut` followed by assignment: update the value at the key
only if the key is present (a no-op otherwise). -/
def alistUpdate (m : List (String × Nat)) (k : String) (v : Nat) : List (String × Nat) :=
  m.map (fun kv => if kv.1 = k then (k, v) else kv)

/-- Source `HashMap::get`. -/
def alistLookup (m : List (String × Nat)) (k : String) : Option Nat :=
  (m.find? (fun kv => kv.1 = k)).map (·.2)

/-- Source `pb::VoteRequest`. -/
structure VoteRequest where
  term : Nat
  candidate_id : String
  last_log_index : Nat
  last_log_term : Nat
deriving DecidableEq, Repr

/-- Source `pb::VoteResponse`. -/
structure VoteResponse where
  term : Nat
  vote_granted : Bool
  voter_id : String
deriving DecidableEq, Repr

/-- Source `pb::AppendEntriesRequest`. -/
structure AppendEntriesRequest where
  term : Nat
  leader_id : String
  prev_log_index : Nat
  prev_log_term : Nat
  entries : List LogEntry
  leader_commit : Nat
deriving DecidableEq, Repr

/-- Source `pb::AppendEntriesResponse`. -/
structure AppendEntriesResponse where
  term : Nat
  success : Bool
  follower_id : String
  conflict_index : Nat
deriving DecidableEq, Repr

/-! ## Engine: vote handling (`engine.rs`) -/

/-- Source `engine.rs` `is_candidate_log_up_to_date` (lines 576-589): compare the
candidate's last log term/index against the local log. -/
def is_candidate_log_up_to_date (node : RaftNode) (req : VoteRequest) : Bool :=
  let lli := node.log.last_log_index
  let llt := node.log.last_log_term
  if llt < req.last_log_term then true
  else if req.last_log_term < llt then false
  else decide (lli ≤ req.last_log_index)

/-- Source `engine.rs` `handle_vote_request` (lines 427-476).  The election-timeout
reset on grant touches only the unmodelled wall-clock timer field. -/
def handle_vote_request (node : RaftNode) (req : VoteRequest) :
    VoteResponse × RaftNode :=
  let node :=
    if node.current_term < req.term then
      { node with current_term := req.term, voted_for := none,
                  role := NodeRole.Follower, leader_id := none }
    else node
  if node.current_term ≤ req.term then
    let can_vote := node.voted_for = none ∨ node.voted_for = some req.candidate_id
    let log_ok := is_candidate_log_up_to_date node req
    if can_vote ∧ log_ok = true then
      let node := { node with voted_for := some req.candidate_id }
      ({ term := node.current_term, vote_granted := true, voter_id := node.node_id }, node)
    else
      ({ term := node.current_term, vote_granted := false, voter_id := node.node_id }, node)
  else
    ({ term := node.current_term, vote_granted := false, voter_id := node.node_id }, node)

/-! ## Engine: AppendEntries handling (`engine.rs`) -/

/-- Source `engine.rs` `check_log_consistency` (lines 592-609). -/
def check_log_consistency (node : RaftNode) (req : AppendEntriesRequest) : Bool :=
  if req.prev_log_index = 0 then true
  else if node.log.last_log_index < req.prev_log_index then false
  else
    match node.log.get_term_at req.prev_log_index with
    | some t => decide (t = req.prev_log_term)
    | none => false

/-- The conflict-detection loop of `engine.rs` `append_log_entries`
(lines 617-626): walk the request's entries with their computed indices
`start_index + i`; at the first position whose existing local entry has a
different term, truncate the log there and stop. -/
def conflict_scan (log : RaftLog) (start_index i : Nat) :
    List LogEntry → RaftLog
  | [] => log
  | e :: rest =>
    match log.get_entry_at (start_index + i) with
    | some existing =>
      if existing.term ≠ e.term then log.truncate_from (start_index + i)
      else conflict_scan log start_index (i + 1) rest
    | none => conflict_scan log start_index (i + 1) rest

/-- Source `engine.rs` `append_log_entries` (lines 612-632): run the conflict scan,
then push every entry of the request onto the log. -/
def append_log_entries (node : RaftNode) (req : AppendEntriesRequest) : RaftNode :=
  let start_index := req.prev_log_index + 1
  let log := conflict_scan node.log start_index 0 req.entries
  { node with log := { log with entities := log.entities ++ req.entries } }

/-- Source `engine.rs` `find_conflict_index` (lines 635-642): `last_log_index()` if
`prev_log_index` is past the log end, otherwise `prev_log_index` itself. -/
def find_conflict_index (node : RaftNode) (req : AppendEntriesRequest) : Nat :=
  if node.log.last_log_index < req.prev_log_index then node.log.last_log_index
  else req.prev_log_index

/-- Step 4 of `engine.rs` `handle_append_entries` (lines 516-519): append the
request entries only when the request carries any. -/
def apply_entries_update (node : RaftNode) (req : AppendEntriesRequest) : RaftNode :=
  if req.entries ≠ [] then append_log_entries node req else node

/-- Step 5 of `engine.rs` `handle_append_entries` (lines 522-526): raise
`commit_index` to `min(leader_commit, last_log_index())` when the leader
commit is ahead. -/
def apply_commit_update (node : RaftNode) (req : AppendEntriesRequest) : RaftNode :=
  if node.log.commit_index < req.leader_commit then
    { node with log :=
        { node.log with commit_index := min req.leader_commit node.log.last_log_index } }
  else node

/-- Step 2 of `engine.rs` `handle_append_entries` (lines 504-509): force the
Follower role and record the sender as leader. -/
def acknowledge_leader (node : RaftNode) (req : AppendEntriesRequest) : RaftNode :=
  { node with role := NodeRole.Follower, leader_id := some req.leader_id }

/-- Steps 2-5 of `engine.rs` `handle_append_entries` (lines 504-541), reached
when `req.term ≥ current_term`: confirm the leader, run the consistency
check, append entries, and update `commit_index`.  The election-timeout reset
touches only the unmodelled wall-clock timer field. -/
def handle_append_entries_core (node : RaftNode) (req : AppendEntriesRequest) :
    AppendEntriesResponse × RaftNode :=
  if check_log_consistency (acknowledge_leader node req) req then
    ({ term := (apply_commit_update
          (apply_entries_update (acknowledge_leader node req) req) req).current_term
       success := true
       follower_id := (apply_commit_update
          (apply_entries_update (acknowledge_leader node req) req) req).node_id
       conflict_index := 0 },
     apply_commit_update (apply_entries_update (acknowledge_leader node req) req) req)
  else
    ({ term := (acknowledge_leader node req).current_term
       success := false
       follower_id := (acknowledge_leader node req).node_id
       conflict_index := find_conflict_index (acknowledge_leader node req) req },
     acknowledge_leader node req)

/-- Source `engine.rs` `handle_append_entries` (lines 479-542). -/
def handle_append_entries (node : RaftNode) (req : AppendEntriesRequest) :
    AppendEntriesResponse × RaftNode :=
  if node.current_term < req.term then
    handle_append_entries_core
      { node with current_term := req.term, voted_for := none,
                  role := NodeRole.Follower, leader_id := some req.leader_id } req
  else if req.term < node.current_term then
    ({ term := node.current_term, success := false,
       follower_id := node.node_id, conflict_index := 0 }, node)
  else
    handle_append_entries_core node req

/-! ## Engine: leadership (`engine.rs`) -/

/-- One iteration of the peer loop of `engine.rs` `become_leader`
(lines 165-171): for a peer other than the node itself, insert
`next_index[peer] = last_log_index + 1` and `match_index[peer] = 0`. -/
def leader_init_step (last_log_index : Nat) (n : RaftNode) (peer : String) : RaftNode :=
  if peer ≠ n.node_id then
    { n with next_index := alistInsert n.next_index peer (last_log_index + 1),
             match_index := alistInsert n.match_index peer 0 }
  else n

/-- Source `engine.rs` `become_leader` (lines 153-174): set the role and leader id
and initialize `next_index` / `match_index` for every peer other than the
node itself.  No log entry of any kind is appended. -/
def become_leader (node : RaftNode) : RaftNode :=
  let last_log_index := node.log.last_log_index
  let node := { node with role := NodeRole.Leader, leader_id := some node.node_id }
  node.peers.foldl (leader_init_step last_log_index) node

/-- The state update of the `resp.success` branch of `engine.rs`
`sync_logs_to_peer` (lines 331-340): on a successful `AppendEntries`
response, set `match_index[peer] = prev_log_index + entries_len` and
`next_index[peer] = prev_log_index + entries_len + 1` (each only if the key
is present).  Nothing else — in particular `commit_index` — is touched. -/
def sync_success_update (node : RaftNode) (peer : String)
    (prev_log_index entries_len : Nat) : RaftNode :=
  { node with
      match_index := alistUpdate node.match_index peer (prev_log_index + entries_len),
      next_index := alistUpdate node.next_index peer (prev_log_index + entries_len + 1) }

/-! ## Leader election (`leader_election.rs`) -/

/-- Source `leader_election.rs`: `ElectionResult`. -/
inductive ElectionResult where
  | Won
  | Lost
  | TermUpdated (t : Nat)
deriving DecidableEq, Repr

/-- Source `leader_election.rs`: `ElectionState` (lines 23-30). -/
structure ElectionState where
  term : Nat
  vote_count : Nat
  votes_received : List String
  total_nodes : Nat
  majority_needed : Nat
deriving DecidableEq, Repr

/-- The election-state initialization of `leader_election.rs`
`start_election` (lines 74-84): count the self-vote and require
`(peers.len() + 1) / 2 + 1` votes (Rust integer — floor — division). -/
def init_election_state (term : Nat) (candidate_id : String) (peers : List String) :
    ElectionState :=
  { term := term
    vote_count := 1
    votes_received := [candidate_id]
    total_nodes := peers.length + 1
    majority_needed := (peers.length + 1) / 2 + 1 }

/-- Source `leader_election.rs` `collect_votes` (lines 156-190).  A run is the list
of `(peer, response)` pairs in arrival order; `none` stands for a transport
error (the `Err` arm, which only logs).  The pairs left of the returned list
are the responses never awaited because the loop returned early. -/
def collect_votes (st : ElectionState) :
    List (String × Option VoteResponse) → ElectionResult × List (String × Option VoteResponse)
  | [] => (ElectionResult.Lost, [])
  | (peer, resp) :: rest =>
    match resp with
    | none => collect_votes st rest
    | some vr =>
      if st.term < vr.term then (ElectionResult.TermUpdated vr.term, rest)
      else if vr.vote_granted = true ∧ peer ∉ st.votes_received then
        let st' := { st with votes_received := peer :: st.votes_received,
                             vote_count := st.vote_count + 1 }
        if st'.majority_needed ≤ st'.vote_count then (ElectionResult.Won, rest)
        else collect_votes st' rest
      else collect_votes st rest

/-! ## Log replication and propose (`log_replication.rs`, `engine.rs`) -/

/-- Source `log_replication.rs`: `ReplicationResult`. -/
inductive ReplicationResult where
  | Success
  | InProgress
  | Failed (msg : String)
  | ConsistencyError
deriving DecidableEq, Repr

/-- Source `engine.rs` `serialize_config_change` (lines 675-682): `key ++ ":" ++ value`
as bytes. -/
def serialize_config_change (key : String) (value : String) : String :=
  key ++ ":" ++ value

/-- Source `log_replication.rs` `replicate_entry` (lines 63-101) together with the
single round of `execute_replication` (lines 104-191) it performs.
`sendOk peer` models whether the transport call to that peer succeeds; when
it does, the stubbed `send_append_entries` (lines 194-250) always returns a
response with `success: true` (hard-coded at lines 244-249), so the peer is
confirmed.  On each transport error the source increments the retry count of
every target node, so after the round every unconfirmed peer's retry count
equals the number of errors; the round reports `Success` on a majority of
confirmations, otherwise `InProgress` while that count is below the retry
limit 3 and `Failed` beyond it.  No field of the node is ever written. -/
def replicate_entry (node : RaftNode) (entry : LogEntry) (sendOk : String → Bool) :
    Except String ReplicationResult :=
  if node.role ≠ NodeRole.Leader then Except.error "Only leader can replicate entries"
  else if node.peers = [] then Except.ok ReplicationResult.Success
  else
    let required_confirmations := node.peers.length / 2 + 1
    let confirmed := node.peers.filter (fun p => sendOk p = true)
    let errors := (node.peers.filter (fun p => ¬ sendOk p = true)).length
    let _ := entry
    if required_confirmations ≤ confirmed.length then Except.ok ReplicationResult.Success
    else if errors < 3 then Except.ok ReplicationResult.InProgress
    else Except.ok (ReplicationResult.Failed "all nodes reached the retry limit")

/-- Source `engine.rs` `propose_config` (lines 357-400): refuse on a non-leader,
build the entry for the next index in the current term, run `replicate_entry`
and map its result to the returned flag.  The source never writes any field
of the node on this path (`propose_config` only reads it, and
`replicate_entry` / `execute_replication` take no mutable access to it), so
the node comes back unchanged. -/
def propose_config (node : RaftNode) (key : String) (value : String)
    (sendOk : String → Bool) : Except String Bool × RaftNode :=
  if node.role ≠ NodeRole.Leader then
    (Except.error "only the Leader may propose configuration changes", node)
  else
    let entry : LogEntry :=
      { term := node.current_term
        index := node.log.last_log_index + 1
        data := serialize_config_change key value
        entry_type := "config"
        key := key }
    match replicate_entry node entry sendOk with
    | Except.ok ReplicationResult.Success => (Except.ok true, node)
    | Except.ok _ => (Except.ok false, node)
    | Except.error e => (Except.error e, node)

/-! ## Specification-side definitions

These follow the wording of the specification (not the source) and are used
to compare the source's behaviour against the spec's. -/

/-- Spec §4.6 / claim C3: "the candidate's log is at least as up-to-date as
the local log, defined as lastLogTerm > local lastTerm(), or lastLogTerm ==
local lastTerm() and lastLogIndex >= local lastIndex()". -/
def candidate_up_to_date_spec (node : RaftNode) (req : VoteRequest) : Prop :=
  node.log.last_log_term < req.last_log_term ∨
    (req.last_log_term = node.log.last_log_term ∧
      node.log.last_log_index ≤ req.last_log_index)

instance (node : RaftNode) (req : VoteRequest) :
    Decidable (candidate_up_to_date_spec node req) := by
  unfold candidate_up_to_date_spec; infer_instance

/-- Spec §4.10 / claim C1: the number of cluster members — the leader itself
plus its peers — whose `matchIndex` is known to be at least `n` (the leader
counts itself). -/
def match_count_ge (node : RaftNode) (n : Nat) : Nat :=
  1 + (node.peers.filter (fun p =>
        match alistLookup node.match_index p with
        | some m => decide (n ≤ m)
        | none => false)).length

/-- Claim C6's counting of "distinct granted votes": the number of distinct
peers, not already in `voted`, from which a granted response appears in the
run; no early stop, no term guard, no threshold — plain counting. -/
def distinct_new_grants (voted : List String) :
    List (String × Option VoteResponse) → Nat
  | [] => 0
  | (peer, resp) :: rest =>
    match resp with
    | none => distinct_new_grants voted rest
    | some vr =>
      if vr.vote_granted = true ∧ peer ∉ voted then
        distinct_new_grants (peer :: voted) rest + 1
      else distinct_new_grants voted rest

/-! ## Concrete example inputs used by witnesses and counterexamples -/

/-- Example log entry: a `config` entry at index 1 of term 1. -/
def exEntry : LogEntry :=
  { term := 1, index := 1, data := "x", entry_type := "config", key := "k" }

/-- Example follower of a 3-node cluster whose log holds `exEntry`. -/
def exFollower : RaftNode :=
  { node_id := "A", current_term := 1, voted_for := none,
    log := { entities := [exEntry], commit_index := 0, last_applied := 0 },
    role := NodeRole.Follower, leader_id := none,
    next_index := [], match_index := [], state_machine := [], peers := ["B", "C"] }

/-- Example follower with an empty log. -/
def exEmptyFollower : RaftNode :=
  { exFollower with log := RaftLog.new }

/-- Example request re-sending `exEntry` (same index, same term). -/
def exDupReq : AppendEntriesRequest :=
  { term := 1, leader_id := "L", prev_log_index := 0, prev_log_term := 0,
    entries := [exEntry], leader_commit := 0 }

/-- Example request whose `prev_log_index` is past the follower log end. -/
def exFarReq : AppendEntriesRequest :=
  { term := 1, leader_id := "L", prev_log_index := 5, prev_log_term := 1,
    entries := [], leader_commit := 0 }

/-- Example request with a stale term. -/
def exStaleReq : AppendEntriesRequest :=
  { term := 0, leader_id := "L", prev_log_index := 0, prev_log_term := 0,
    entries := [], leader_commit := 0 }

/-- Example leader tracking two peers, none acknowledged yet. -/
def exCommitLeader : RaftNode :=
  { exFollower with
    role := NodeRole.Leader
    leader_id := some "A"
    next_index := [("B", 1), ("C", 1)]
    match_index := [("B", 0), ("C", 0)] }

/-- Example leader with an empty log, about to propose. -/
def exProposeLeader : RaftNode :=
  { exEmptyFollower with
    role := NodeRole.Leader
    leader_id := some "A" }

/-- Example vote request of a higher term. -/
def exVoteReq : VoteRequest :=
  { term := 2, candidate_id := "Cand", last_log_index := 0, last_log_term := 0 }

/-- Example vote request from a second candidate in the same term. -/
def exVoteReqB : VoteRequest :=
  { term := 2, candidate_id := "Other", last_log_index := 0, last_log_term := 0 }

/-! ## Helper lemmas -/

lemma is_candidate_log_up_to_date_iff (node : RaftNode) (req : VoteRequest) :
    is_candidate_log_up_to_date node req = true ↔ candidate_up_to_date_spec node req := by
  simp only [is_candidate_log_up_to_date, candidate_up_to_date_spec]
  split_ifs with h1 h2 <;> simp <;> omega

lemma vote_grant_sets_voted_for (node : RaftNode) (req : VoteRequest)
    (h : (handle_vote_request node req).1.vote_granted = true) :
    (handle_vote_request node req).2.voted_for = some req.candidate_id := by
  unfold handle_vote_request at h ⊢
  split_ifs at h ⊢ <;> try simp_all
  all_goals (split_ifs at h ⊢; simp_all)

lemma handle_append_entries_stale (n : RaftNode) (req : AppendEntriesRequest)
    (h : req.term < n.current_term) :
    handle_append_entries n req =
      ({ term := n.current_term, success := false,
         follower_id := n.node_id, conflict_index := 0 }, n) := by
  unfold handle_append_entries
  rw [if_neg (by omega), if_pos h]

lemma handle_append_entries_high (n : RaftNode) (req : AppendEntriesRequest)
    (hlt : n.current_term < req.term) :
    handle_append_entries n req =
      handle_append_entries_core
        { n with current_term := req.term, voted_for := none,
                 role := NodeRole.Follower, leader_id := some req.leader_id } req := by
  unfold handle_append_entries
  rw [if_pos hlt]

lemma handle_append_entries_same (n : RaftNode) (req : AppendEntriesRequest)
    (h1 : ¬ n.current_term < req.term) (h2 : ¬ req.term < n.current_term) :
    handle_append_entries n req = handle_append_entries_core n req := by
  unfold handle_append_entries
  rw [if_neg h1, if_neg h2]

lemma check_ack (n : RaftNode) (req : AppendEntriesRequest) :
    check_log_consistency (acknowledge_leader n req) req = check_log_consistency n req := rfl

lemma ack_current_term (n : RaftNode) (req : AppendEntriesRequest) :
    (acknowledge_leader n req).current_term = n.current_term := rfl

lemma ack_node_id (n : RaftNode) (req : AppendEntriesRequest) :
    (acknowledge_leader n req).node_id = n.node_id := rfl

lemma ack_log (n : RaftNode) (req : AppendEntriesRequest) :
    (acknowledge_leader n req).log = n.log := rfl

lemma acu_aeu_current_term (n : RaftNode) (req : AppendEntriesRequest) :
    (apply_commit_update (apply_entries_update n req) req).current_term = n.current_term := by
  unfold apply_commit_update apply_entries_update append_log_entries
  split_ifs <;> rfl

lemma acu_aeu_node_id (n : RaftNode) (req : AppendEntriesRequest) :
    (apply_commit_update (apply_entries_update n req) req).node_id = n.node_id := by
  unfold apply_commit_update apply_entries_update append_log_entries
  split_ifs <;> rfl

lemma handle_append_entries_core_fail (n : RaftNode) (req : AppendEntriesRequest)
    (hfail : check_log_consistency n req = false) :
    handle_append_entries_core n req =
      ({ term := n.current_term, success := false, follower_id := n.node_id,
         conflict_index := find_conflict_index n req },
       acknowledge_leader n req) := by
  unfold handle_append_entries_core
  rw [if_neg (by rw [check_ack, hfail]; simp)]
  rfl

lemma handle_append_entries_core_pass (n : RaftNode) (req : AppendEntriesRequest)
    (hpass : check_log_consistency n req = true) :
    handle_append_entries_core n req =
      ({ term := n.current_term, success := true, follower_id := n.node_id,
         conflict_index := 0 },
       apply_commit_update (apply_entries_update (acknowledge_leader n req) req) req) := by
  unfold handle_append_entries_core
  rw [if_pos (by rw [check_ack, hpass])]
  refine Prod.ext ?_ rfl
  simp only [acu_aeu_current_term, acu_aeu_node_id, ack_current_term, ack_node_id]

lemma apply_entries_update_empty (n : RaftNode) (req : AppendEntriesRequest)
    (he : req.entries = []) : apply_entries_update n req = n := by
  unfold apply_entries_update
  rw [if_neg (by simp [he])]

lemma apply_commit_update_pos (n : RaftNode) (req : AppendEntriesRequest)
    (h : n.log.commit_index < req.leader_commit) :
    apply_commit_update n req =
      { n with log :=
          { n.log with commit_index := min req.leader_commit n.log.last_log_index } } := by
  unfold apply_commit_update
  rw [if_pos h]

lemma apply_commit_update_neg (n : RaftNode) (req : AppendEntriesRequest)
    (h : ¬ n.log.commit_index < req.leader_commit) :
    apply_commit_update n req = n := by
  unfold apply_commit_update
  rw [if_neg h]

lemma raftnode_set_follower_self (m : RaftNode) (lid : String)
    (hrole : m.role = NodeRole.Follower) (hlead : m.leader_id = some lid) :
    ({ m with role := NodeRole.Follower, leader_id := some lid } : RaftNode) = m := by
  cases m
  simp_all

lemma raftnode_set_commit_self (m : RaftNode) (v : Nat)
    (hv : v = m.log.commit_index) :
    ({ m with log := { m.log with commit_index := v } } : RaftNode) = m := by
  obtain ⟨id, ct, vf, lg, rl, li, ni, mi, sm, ps⟩ := m
  obtain ⟨ents, ci, la⟩ := lg
  simp_all

lemma handle_core_current_term (n : RaftNode) (req : AppendEntriesRequest) :
    (handle_append_entries_core n req).2.current_term = n.current_term := by
  unfold handle_append_entries_core
  split_ifs
  · exact acu_aeu_current_term _ req
  · rfl

lemma core_empty_idem (n : RaftNode) (req : AppendEntriesRequest)
    (he : req.entries = []) :
    handle_append_entries_core (handle_append_entries_core n req).2 req =
      handle_append_entries_core n req := by
  by_cases hpass : check_log_consistency n req = true
  · rw [handle_append_entries_core_pass n req hpass,
        apply_entries_update_empty _ req he]
    by_cases hlc : (acknowledge_leader n req).log.commit_index < req.leader_commit
    · rw [apply_commit_update_pos _ req hlc]
      set m : RaftNode :=
        { acknowledge_leader n req with log :=
            { (acknowledge_leader n req).log with
              commit_index := min req.leader_commit (acknowledge_leader n req).log.last_log_index } }
        with hm
      have hpass2 : check_log_consistency m req = true := hpass
      rw [handle_append_entries_core_pass m req hpass2,
          apply_entries_update_empty _ req he]
      have hack : acknowledge_leader m req = m := by
        rw [hm]
        exact raftnode_set_follower_self _ _ rfl rfl
      rw [hack]
      by_cases hlc2 : m.log.commit_index < req.leader_commit
      · rw [apply_commit_update_pos m req hlc2]
        refine Prod.ext rfl ?_
        exact raftnode_set_commit_self m _ rfl
      · rw [apply_commit_update_neg m req hlc2]
        rfl
    · rw [apply_commit_update_neg _ req hlc]
      have hpass2 : check_log_consistency (acknowledge_leader n req) req = true := hpass
      rw [handle_append_entries_core_pass _ req hpass2,
          apply_entries_update_empty _ req he]
      have hack : acknowledge_leader (acknowledge_leader n req) req = acknowledge_leader n req :=
        raftnode_set_follower_self _ _ rfl rfl
      rw [hack, apply_commit_update_neg _ req hlc]
      rfl
  · have hfail : check_log_consistency n req = false := by
      cases hx : check_log_consistency n req
      · rfl
      · exact absurd hx hpass
    rw [handle_append_entries_core_fail n req hfail]
    have hfail2 : check_log_consistency (acknowledge_leader n req) req = false := hfail
    rw [handle_append_entries_core_fail _ req hfail2]
    have hack : acknowledge_leader (acknowledge_leader n req) req = acknowledge_leader n req :=
      raftnode_set_follower_self _ _ rfl rfl
    rw [hack]
    rfl

lemma handle_after_core (n : RaftNode) (req : AppendEntriesRequest)
    (hct : n.current_term = req.term) (he : req.entries = []) :
    handle_append_entries (handle_append_entries_core n req).2 req =
      handle_append_entries_core n req := by
  have hctp := handle_core_current_term n req
  rw [handle_append_entries_same _ req (by omega) (by omega)]
  exact core_empty_idem n req he

/-! ### claim theorems (draft) -/

lemma conflict_scan_no_conflict (log : RaftLog) (start : Nat) :
    ∀ (entries : List LogEntry) (i : Nat),
      (∀ (j : Nat) (hj : j < entries.length) (ex : LogEntry),
          log.get_entry_at (start + (i + j)) = some ex →
          ex.term = entries[j].term) →
      conflict_scan log start i entries = log
  | [], i, _ => rfl
  | e :: rest, i, h => by
    simp only [conflict_scan]
    cases hx : log.get_entry_at (start + i) with
    | none =>
      exact conflict_scan_no_conflict log start rest (i + 1) (fun j hj ex hex => by
        have := h (j + 1) (by simpa using Nat.succ_lt_succ hj) ex
          (by rw [show start + (i + (j + 1)) = start + (i + 1 + j) by omega]; exact hex)
        simpa using this)
    | some ex =>
      have heq : ex.term = e.term := by
        have := h 0 (by simp) ex (by rw [Nat.add_zero]; exact hx)
        simpa using this
      dsimp only
      rw [if_neg (by simp [heq])]
      exact conflict_scan_no_conflict log start rest (i + 1) (fun j hj ex2 hex => by
        have := h (j + 1) (by simpa using Nat.succ_lt_succ hj) ex2
          (by rw [show start + (i + (j + 1)) = start + (i + 1 + j) by omega]; exact hex)
        simpa using this)

lemma conflict_scan_first_conflict (log : RaftLog) (start : Nat) :
    ∀ (entries : List LogEntry) (i j0 : Nat) (hj0 : j0 < entries.length) (ex : LogEntry),
      log.get_entry_at (start + (i + j0)) = some ex →
      ex.term ≠ entries[j0].term →
      (∀ (j : Nat) (hj : j < j0) (ex2 : LogEntry),
          log.get_entry_at (start + (i + j)) = some ex2 →
          ex2.term = entries[j].term) →
      conflict_scan log start i entries = log.truncate_from (start + (i + j0))
  | [], _, j0, hj0, _ => by simp at hj0
  | e :: rest, i, 0, hj0, ex => by
    intro hex hne _
    simp only [conflict_scan]
    rw [show log.get_entry_at (start + i) = some ex from by
      rw [← Nat.add_zero i]; exact hex]
    dsimp only
    rw [if_pos (by simpa using hne)]
    rw [Nat.add_zero]
  | e :: rest, i, j0 + 1, hj0, ex => by
    intro hex hne hbefore
    simp only [conflict_scan]
    cases hx : log.get_entry_at (start + i) with
    | none =>
      rw [conflict_scan_first_conflict log start rest (i + 1) j0
        (by simpa using hj0) ex
        (by rw [show start + (i + 1 + j0) = start + (i + (j0 + 1)) by omega]; exact hex)
        (by simpa using hne)
        (fun j hj ex2 hex2 => by
          have := hbefore (j + 1) (by omega) ex2
            (by rw [show start + (i + (j + 1)) = start + (i + 1 + j) by omega]; exact hex2)
          simpa using this)]
      rw [show start + (i + 1 + j0) = start + (i + (j0 + 1)) by omega]
    | some ex2 =>
      have heq : ex2.term = e.term := by
        have := hbefore 0 (by omega) ex2 (by rw [Nat.add_zero]; exact hx)
        simpa using this
      dsimp only
      rw [if_neg (by simp [heq])]
      rw [conflict_scan_first_conflict log start rest (i + 1) j0
        (by simpa using hj0) ex
        (by rw [show start + (i + 1 + j0) = start + (i + (j0 + 1)) by omega]; exact hex)
        (by simpa using hne)
        (fun j hj ex3 hex3 => by
          have := hbefore (j + 1) (by omega) ex3
            (by rw [show start + (i + (j + 1)) = start + (i + 1 + j) by omega]; exact hex3)
          simpa using this)]
      rw [show start + (i + 1 + j0) = start + (i + (j0 + 1)) by omega]

lemma check_log_consistency_log (n1 n2 : RaftNode) (req : AppendEntriesRequest)
    (h : n1.log = n2.log) :
    check_log_consistency n1 req = check_log_consistency n2 req := by
  unfold check_log_consistency
  rw [h]

lemma acu_entities (n : RaftNode) (req : AppendEntriesRequest) :
    (apply_commit_update n req).log.entities = n.log.entities := by
  unfold apply_commit_update
  split_ifs <;> rfl

lemma handle_pass_entities (n : RaftNode) (req : AppendEntriesRequest)
    (hterm : n.current_term ≤ req.term)
    (hpass : check_log_consistency n req = true) :
    (handle_append_entries n req).2.log.entities =
      (conflict_scan n.log (req.prev_log_index + 1) 0 req.entries).entities
        ++ req.entries := by
  have main : ∀ m : RaftNode, m.log = n.log →
      (handle_append_entries_core m req).2.log.entities =
        (conflict_scan n.log (req.prev_log_index + 1) 0 req.entries).entities
          ++ req.entries := by
    intro m hm
    have hpassm : check_log_consistency m req = true := by
      rw [check_log_consistency_log m n req hm]; exact hpass
    rw [handle_append_entries_core_pass m req hpassm, acu_entities]
    by_cases he : req.entries = []
    · rw [apply_entries_update_empty _ req he, he]
      show m.log.entities = (conflict_scan n.log (req.prev_log_index + 1) 0 []).entities ++ []
      rw [hm]
      simp [conflict_scan]
    · rw [show apply_entries_update (acknowledge_leader m req) req
          = append_log_entries (acknowledge_leader m req) req from by
        unfold apply_entries_update; rw [if_pos (by simp [he])]]
      show (conflict_scan (acknowledge_leader m req).log (req.prev_log_index + 1) 0
          req.entries).entities ++ req.entries = _
      rw [show (acknowledge_leader m req).log = n.log from hm]
  by_cases hlt : n.current_term < req.term
  · rw [handle_append_entries_high n req hlt]
    exact main _ rfl
  · rw [handle_append_entries_same n req hlt (by omega)]
    exact main n rfl

lemma alistLookup_insert_self (m : List (String × Nat)) (k : String) (v : Nat) :
    alistLookup (alistInsert m k v) k = some v := by
  induction m with
  | nil => simp [alistInsert, alistLookup]
  | cons kv rest ih =>
    obtain ⟨k1, v1⟩ := kv
    by_cases hk : k1 = k
    · subst hk
      simp [alistInsert, alistLookup]
    · simp only [alistInsert, if_neg hk]
      simpa [alistLookup, List.find?, hk] using ih

lemma alistLookup_insert_ne (m : List (String × Nat)) (k q : String) (v : Nat)
    (h : q ≠ k) :
    alistLookup (alistInsert m q v) k = alistLookup m k := by
  induction m with
  | nil => simp [alistInsert, alistLookup, List.find?, h]
  | cons kv rest ih =>
    obtain ⟨k1, v1⟩ := kv
    by_cases hk : k1 = q
    · subst hk
      simp [alistInsert, alistLookup, List.find?, h]
    · simp only [alistInsert, if_neg hk]
      by_cases hk2 : k1 = k
      · subst hk2
        simp [alistLookup, List.find?]
      · simpa [alistLookup, List.find?, hk2] using ih

lemma leader_init_step_fields (last : Nat) (n : RaftNode) (p : String) :
    (leader_init_step last n p).node_id = n.node_id ∧
    (leader_init_step last n p).log = n.log ∧
    (leader_init_step last n p).role = n.role ∧
    (leader_init_step last n p).leader_id = n.leader_id ∧
    (leader_init_step last n p).current_term = n.current_term := by
  unfold leader_init_step
  split_ifs <;> exact ⟨rfl, rfl, rfl, rfl, rfl⟩

lemma foldl_init_fields (last : Nat) :
    ∀ (l : List String) (n : RaftNode),
      (l.foldl (leader_init_step last) n).node_id = n.node_id ∧
      (l.foldl (leader_init_step last) n).log = n.log ∧
      (l.foldl (leader_init_step last) n).role = n.role ∧
      (l.foldl (leader_init_step last) n).leader_id = n.leader_id ∧
      (l.foldl (leader_init_step last) n).current_term = n.current_term
  | [], n => ⟨rfl, rfl, rfl, rfl, rfl⟩
  | p :: rest, n => by
    have h1 := leader_init_step_fields last n p
    have h2 := foldl_init_fields last rest (leader_init_step last n p)
    simp only [List.foldl_cons]
    exact ⟨h2.1.trans h1.1, h2.2.1.trans h1.2.1, h2.2.2.1.trans h1.2.2.1,
      h2.2.2.2.1.trans h1.2.2.2.1, h2.2.2.2.2.trans h1.2.2.2.2⟩

lemma foldl_init_keeps (last : Nat) (p : String) :
    ∀ (l : List String) (n : RaftNode),
      alistLookup n.next_index p = some (last + 1) →
      alistLookup n.match_index p = some 0 →
      alistLookup (l.foldl (leader_init_step last) n).next_index p = some (last + 1) ∧
      alistLookup (l.foldl (leader_init_step last) n).match_index p = some 0
  | [], n, h1, h2 => ⟨h1, h2⟩
  | q :: rest, n, h1, h2 => by
    simp only [List.foldl_cons]
    refine foldl_init_keeps last p rest (leader_init_step last n q) ?_ ?_ <;>
      unfold leader_init_step <;> split_ifs
    · by_cases hq : q = p
      · subst hq
        simpa using alistLookup_insert_self n.next_index q (last + 1)
      · simpa [alistLookup_insert_ne _ _ _ _ hq] using h1
    · exact h1
    · by_cases hq : q = p
      · subst hq
        simpa using alistLookup_insert_self n.match_index q 0
      · simpa [alistLookup_insert_ne _ _ _ _ hq] using h2
    · exact h2

lemma foldl_init_sets (last : Nat) (p : String) :
    ∀ (l : List String) (n : RaftNode), p ∈ l → p ≠ n.node_id →
      alistLookup (l.foldl (leader_init_step last) n).next_index p = some (last + 1) ∧
      alistLookup (l.foldl (leader_init_step last) n).match_index p = some 0
  | [], n, hmem, _ => by simp at hmem
  | q :: rest, n, hmem, hne => by
    simp only [List.foldl_cons]
    by_cases hq : q = p
    · subst hq
      refine foldl_init_keeps last q rest (leader_init_step last n q) ?_ ?_ <;>
        unfold leader_init_step <;> rw [if_pos hne]
      · exact alistLookup_insert_self _ q (last + 1)
      · show alistLookup (alistInsert n.match_index q 0) q = some 0
        exact alistLookup_insert_self _ q 0
    · have hmem2 : p ∈ rest := by
        rcases List.mem_cons.mp hmem with h | h
        · exact absurd h.symm hq
        · exact h
      have hne2 : p ≠ (leader_init_step last n q).node_id := by
        rw [(leader_init_step_fields last n q).1]
        exact hne
      exact foldl_init_sets last p rest (leader_init_step last n q) hmem2 hne2

lemma collect_votes_won_iff :
    ∀ (rs : List (String × Option VoteResponse)) (st : ElectionState),
      (∀ pr ∈ rs, ∀ vr : VoteResponse, pr.2 = some vr → vr.term ≤ st.term) →
      ((collect_votes st rs).1 = ElectionResult.Won ↔
        max st.majority_needed (st.vote_count + 1) ≤
          st.vote_count + distinct_new_grants st.votes_received rs)
  | [], st, _ => by
    simp only [collect_votes, distinct_new_grants]
    constructor
    · intro h
      exact absurd h (by simp)
    · omega
  | (peer, resp) :: rest, st, hterm => by
    cases resp with
    | none =>
      simp only [collect_votes, distinct_new_grants]
      exact collect_votes_won_iff rest st
        (fun pr hpr vr hvr => hterm pr (List.mem_cons_of_mem _ hpr) vr hvr)
    | some vr =>
      have hle : vr.term ≤ st.term :=
        hterm (peer, some vr) (List.mem_cons_self _ _) vr rfl
      simp only [collect_votes, distinct_new_grants]
      rw [if_neg (by omega)]
      by_cases hg : vr.vote_granted = true ∧ peer ∉ st.votes_received
      · rw [if_pos hg, if_pos hg]
        by_cases hwin : st.majority_needed ≤ st.vote_count + 1
        · rw [if_pos hwin]
          constructor
          · intro _
            omega
          · intro _
            rfl
        · rw [if_neg hwin]
          rw [collect_votes_won_iff rest
            { st with votes_received := peer :: st.votes_received,
                      vote_count := st.vote_count + 1 }
            (fun pr hpr vr2 hvr => hterm pr (List.mem_cons_of_mem _ hpr) vr2 hvr)]
          dsimp only
          omega
      · rw [if_neg hg, if_neg hg]
        exact collect_votes_won_iff rest st
          (fun pr hpr vr2 hvr => hterm pr (List.mem_cons_of_mem _ hpr) vr2 hvr)

lemma collect_votes_append_won (rest : List (String × Option VoteResponse)) :
    ∀ (rs : List (String × Option VoteResponse)) (st : ElectionState),
      (collect_votes st rs).1 = ElectionResult.Won →
      collect_votes st (rs ++ rest) =
        (ElectionResult.Won, (collect_votes st rs).2 ++ rest)
  | [], st, hwon => by
    simp [collect_votes] at hwon
  | (peer, resp) :: tl, st, hwon => by
    cases resp with
    | none =>
      simp only [collect_votes, List.cons_append] at hwon ⊢
      exact collect_votes_append_won rest tl st hwon
    | some vr =>
      simp only [collect_votes, List.cons_append] at hwon ⊢
      split_ifs at hwon ⊢
      · rfl
      · exact collect_votes_append_won rest tl _ hwon
      · exact collect_votes_append_won rest tl st hwon

/-! ## Claim theorems -/

/-- Claim C1 (code bug, evaluated at the failing input): after a successful
`AppendEntries` response from peer B carrying one entry at index 1, a
majority of the 3-node cluster (the leader itself plus B) has
`matchIndex ≥ 1`, the term at index 1 equals `currentTerm`, and
`1 > commitIndex`, yet `sync_logs_to_peer` leaves `commitIndex = 0`: the
leader never computes N and never advances its commit index, contrary to the
claim. -/
theorem c1_leader_commit_never_advanced :
    2 * match_count_ge (sync_success_update exCommitLeader "B" 0 1) 1 >
      (sync_success_update exCommitLeader "B" 0 1).peers.length + 1 ∧
    (sync_success_update exCommitLeader "B" 0 1).log.get_term_at 1 =
      some (sync_success_update exCommitLeader "B" 0 1).current_term ∧
    (sync_success_update exCommitLeader "B" 0 1).log.commit_index < 1 ∧
    (sync_success_update exCommitLeader "B" 0 1).log.commit_index ≠ 1 := by
  decide

/-- Claim C2, counterexample: delivering a request whose single entry
duplicates the local entry at index 1 (same index, same term) appends a
second copy instead of being a no-op — the log changes from one entry to two
identical ones. -/
theorem c2_duplicate_entry_reappended :
    (handle_append_entries exFollower exDupReq).2.log.entities = [exEntry, exEntry] ∧
    exFollower.log.entities = [exEntry] ∧
    (handle_append_entries exFollower exDupReq).2.log.entities ≠ exFollower.log.entities := by
  decide

/-- Claim C2 (amended): when the consistency check passes, the handler scans
the request entries at computed indices `prevLogIndex + 1 + i`; if every
existing local entry at those positions has the same term as the
corresponding request entry, the log is left untouched by the scan and then
EVERY request entry is appended behind the existing log (duplicates
included); if `j0` is the first position whose existing local entry has a
different term, the log is truncated to the entries with index below
`prevLogIndex + 1 + j0` and then every request entry is appended.  Entries
are never filtered by `e.index > lastIndex()` and duplicates are not
no-ops. -/
theorem c2_append_entries_amended (node : RaftNode) (req : AppendEntriesRequest)
    (hterm : node.current_term ≤ req.term)
    (hpass : check_log_consistency node req = true) :
    ((∀ (j : Nat) (hj : j < req.entries.length) (ex : LogEntry),
        node.log.get_entry_at (req.prev_log_index + 1 + j) = some ex →
        ex.term = req.entries[j].term) →
      (handle_append_entries node req).2.log.entities =
        node.log.entities ++ req.entries) ∧
    (∀ (j0 : Nat) (hj0 : j0 < req.entries.length) (ex : LogEntry),
        node.log.get_entry_at (req.prev_log_index + 1 + j0) = some ex →
        ex.term ≠ req.entries[j0].term →
        (∀ (j : Nat) (hj : j < j0) (ex2 : LogEntry),
            node.log.get_entry_at (req.prev_log_index + 1 + j) = some ex2 →
            ex2.term = req.entries[j].term) →
      (handle_append_entries node req).2.log.entities =
        node.log.entities.filter (fun e => e.index < req.prev_log_index + 1 + j0)
          ++ req.entries) := by
  constructor
  · intro h
    rw [handle_pass_entities node req hterm hpass]
    rw [conflict_scan_no_conflict node.log (req.prev_log_index + 1) req.entries 0
      (fun j hj ex hex => h j hj ex (by simpa using hex))]
  · intro j0 hj0 ex hex hne hbefore
    rw [handle_pass_entities node req hterm hpass]
    rw [conflict_scan_first_conflict node.log (req.prev_log_index + 1) req.entries 0 j0 hj0 ex
      (by simpa using hex) hne
      (fun j hj ex2 hex2 => hbefore j hj ex2 (by simpa using hex2))]
    show (node.log.truncate_from (req.prev_log_index + 1 + (0 + j0))).entities ++ req.entries = _
    rw [Nat.zero_add]
    rfl

/-- Witness for C2 at a concrete input: re-sending the entry at index 1 with
its original term appends it again behind the unchanged log. -/
theorem c2_append_entries_amended_witness :
    (handle_append_entries exFollower exDupReq).2.log.entities =
      exFollower.log.entities ++ exDupReq.entries :=
  (c2_append_entries_amended exFollower exDupReq (by decide) (by decide)).1
    (by
      intro j hj ex hex
      have hj1 : j < 1 := by simpa [exDupReq] using hj
      have hj0 : j = 0 := by omega
      subst hj0
      have h1 : exFollower.log.get_entry_at (exDupReq.prev_log_index + 1 + 0)
          = some exEntry := rfl
      rw [h1] at hex
      injection hex with h2
      rw [← h2]
      rfl)

/-- Claim C3 (confirmed): for every `VoteRequest` whose term is at least the
node current term, the vote is granted iff `votedFor` after the term update
is none or the candidate itself, and the candidate log is at least as
up-to-date as the local log (`lastLogTerm` greater, or equal with
`lastLogIndex ≥` local last index). -/
theorem c3_vote_grant_iff (node : RaftNode) (req : VoteRequest)
    (h : node.current_term ≤ req.term) :
    ((handle_vote_request node req).1.vote_granted = true) ↔
      (((if node.current_term < req.term then none else node.voted_for) = none ∨
        (if node.current_term < req.term then none else node.voted_for)
          = some req.candidate_id) ∧
        candidate_up_to_date_spec node req) := by
  by_cases hlt : node.current_term < req.term
  · have hup' : is_candidate_log_up_to_date
        { node with current_term := req.term, voted_for := none,
                    role := NodeRole.Follower, leader_id := none } req = true ↔
        candidate_up_to_date_spec node req :=
      is_candidate_log_up_to_date_iff _ _
    simp only [handle_vote_request, if_pos hlt]
    rw [if_pos (le_refl req.term)]
    by_cases hspec : candidate_up_to_date_spec node req
    · rw [if_pos ⟨Or.inl trivial, hup'.mpr hspec⟩]
      simp [hspec, if_pos hlt]
    · rw [if_neg (fun hx => hspec (hup'.mp hx.2))]
      simp [hspec]
  · simp only [handle_vote_request, if_neg hlt]
    rw [if_pos h]
    by_cases hspec : candidate_up_to_date_spec node req
    · by_cases hcv : node.voted_for = none ∨ node.voted_for = some req.candidate_id
      · rw [if_pos ⟨hcv, (is_candidate_log_up_to_date_iff node req).mpr hspec⟩]
        simp [if_neg hlt, hspec, hcv]
      · rw [if_neg (fun hx => hcv hx.1)]
        simp [if_neg hlt, hspec, hcv]
    · rw [if_neg (fun hx => hspec ((is_candidate_log_up_to_date_iff node req).mp hx.2))]
      simp [if_neg hlt, hspec]

/-- Witness for C3 at a concrete input. -/
theorem c3_vote_grant_iff_witness :
    ((handle_vote_request exEmptyFollower exVoteReq).1.vote_granted = true) ↔
      (((if exEmptyFollower.current_term < exVoteReq.term then none
          else exEmptyFollower.voted_for) = none ∨
        (if exEmptyFollower.current_term < exVoteReq.term then none
          else exEmptyFollower.voted_for) = some exVoteReq.candidate_id) ∧
        candidate_up_to_date_spec exEmptyFollower exVoteReq) :=
  c3_vote_grant_iff exEmptyFollower exVoteReq (by decide)

/-- Claim C4, counterexample: on an empty log and `prevLogIndex = 5` the
consistency check fails and the response carries `conflictIndex = 0`
(`lastIndex()`), not `lastIndex() + 1 = 1` as the claim states. -/
theorem c4_conflict_index_not_last_plus_one :
    (handle_append_entries exEmptyFollower exFarReq).1.success = false ∧
    exEmptyFollower.log.last_log_index < exFarReq.prev_log_index ∧
    (handle_append_entries exEmptyFollower exFarReq).1.conflict_index = 0 ∧
    (handle_append_entries exEmptyFollower exFarReq).1.conflict_index ≠
      exEmptyFollower.log.last_log_index + 1 := by
  decide

/-- Claim C4 (amended): for a request with `prevLogIndex > 0` that fails the
consistency check, the response carries `conflictIndex = lastIndex()` when
`lastIndex() < prevLogIndex` (not `lastIndex() + 1`), and otherwise
`conflictIndex = prevLogIndex` itself (no walk-back to the first index of
the conflicting term). -/
theorem c4_conflict_index_amended (node : RaftNode) (req : AppendEntriesRequest)
    (hterm : node.current_term ≤ req.term)
    (hpi : 0 < req.prev_log_index)
    (hfail : check_log_consistency node req = false) :
    (handle_append_entries node req).1.success = false ∧
    (handle_append_entries node req).1.conflict_index =
      (if node.log.last_log_index < req.prev_log_index then node.log.last_log_index
       else req.prev_log_index) := by
  have hpos := hpi
  by_cases hlt : node.current_term < req.term
  · rw [handle_append_entries_high node req hlt, handle_append_entries_core_fail]
    · exact ⟨rfl, rfl⟩
    · exact hfail
  · rw [handle_append_entries_same node req hlt (by omega), handle_append_entries_core_fail]
    · exact ⟨rfl, rfl⟩
    · exact hfail

/-- Witness for C4 at a concrete input. -/
theorem c4_conflict_index_amended_witness :
    (handle_append_entries exEmptyFollower exFarReq).1.success = false ∧
    (handle_append_entries exEmptyFollower exFarReq).1.conflict_index =
      (if exEmptyFollower.log.last_log_index < exFarReq.prev_log_index
       then exEmptyFollower.log.last_log_index else exFarReq.prev_log_index) :=
  c4_conflict_index_amended exEmptyFollower exFarReq (by decide) (by decide) (by decide)

/-- Claim C5, counterexample: after `become_leader` the log is unchanged and
its last entry is the pre-existing `config` entry — no noop of the new term
is appended. -/
theorem c5_no_noop_appended :
    (become_leader exFollower).log.entities.getLast? = some exEntry ∧
    exEntry.entry_type ≠ "noop" ∧
    (become_leader exFollower).log = exFollower.log := by
  decide

/-- Claim C5 (amended): on becoming leader the node only sets
`role = Leader` and `leaderId = self` and initializes
`nextIndex[p] = lastIndex() + 1` and `matchIndex[p] = 0` for every peer
other than itself; the log — in particular its last entry — and the current
term are unchanged, and no noop entry is appended. -/
theorem c5_become_leader_amended (node : RaftNode) :
    (become_leader node).log = node.log ∧
    (become_leader node).role = NodeRole.Leader ∧
    (become_leader node).leader_id = some node.node_id ∧
    (become_leader node).current_term = node.current_term ∧
    (∀ p, p ∈ node.peers → p ≠ node.node_id →
      alistLookup (become_leader node).next_index p
        = some (node.log.last_log_index + 1) ∧
      alistLookup (become_leader node).match_index p = some 0) := by
  unfold become_leader
  have hf := foldl_init_fields node.log.last_log_index node.peers
    { node with role := NodeRole.Leader, leader_id := some node.node_id }
  refine ⟨hf.2.1, hf.2.2.1, hf.2.2.2.1, hf.2.2.2.2, ?_⟩
  intro p hmem hne
  exact foldl_init_sets node.log.last_log_index p node.peers
    { node with role := NodeRole.Leader, leader_id := some node.node_id } hmem hne

/-- Witness for C5 at a concrete input. -/
theorem c5_become_leader_amended_witness :
    alistLookup (become_leader exFollower).next_index "B"
      = some (exFollower.log.last_log_index + 1) ∧
    alistLookup (become_leader exFollower).match_index "B" = some 0 :=
  (c5_become_leader_amended exFollower).2.2.2.2 "B" (by decide) (by decide)

/-- Claim C6, counterexample: in a 3-node cluster (`N = 3`) the candidate
wins with 2 distinct granted votes (self plus one peer) although
`⌈N/2⌉ + 1 = (3 + 1) / 2 + 1 = 3`; the threshold the code uses is
`⌊N/2⌋ + 1 = 2`, not `⌈N/2⌉ + 1`. -/
theorem c6_won_below_ceil_majority :
    collect_votes (init_election_state 2 "A" ["B", "C"])
        [("B", some { term := 2, vote_granted := true, voter_id := "B" })] =
      (ElectionResult.Won, []) ∧
    1 + distinct_new_grants ["A"]
        [("B", some { term := 2, vote_granted := true, voter_id := "B" })] = 2 ∧
    2 < (3 + 1) / 2 + 1 := by
  decide

/-- Claim C6 (amended): the election threshold is
`majority_needed = ⌊N/2⌋ + 1` (integer division, `N = peers + 1`), and the
candidate transitions to Leader exactly when a granted vote from a
not-yet-counted peer brings the number of distinct granted votes — its own
self-vote plus granted responses — to that threshold (assuming no response
carries a higher term): equivalently, iff
`max (⌊N/2⌋ + 1) 2 ≤ 1 + distinct granted peer votes`.  In particular the
self-vote alone never wins even where it meets the threshold: in a
single-node cluster (`peers = []`, threshold `1`) the loop processes no
response, the winning check never runs, and the election is Lost.  Upon
reaching the threshold the candidate returns immediately: responses arriving
after the deciding one are left unprocessed. -/
theorem c6_election_majority_amended (t : Nat) (cand : String) (peers : List String)
    (rs : List (String × Option VoteResponse))
    (hterm : ∀ pr ∈ rs, ∀ vr : VoteResponse, pr.2 = some vr → vr.term ≤ t) :
    (init_election_state t cand peers).majority_needed = (peers.length + 1) / 2 + 1 ∧
    ((collect_votes (init_election_state t cand peers) rs).1 = ElectionResult.Won ↔
      max ((peers.length + 1) / 2 + 1) 2 ≤ 1 + distinct_new_grants [cand] rs) ∧
    (∀ rest, (collect_votes (init_election_state t cand peers) rs).1 = ElectionResult.Won →
      collect_votes (init_election_state t cand peers) (rs ++ rest) =
        (ElectionResult.Won,
         (collect_votes (init_election_state t cand peers) rs).2 ++ rest)) :=
  ⟨rfl, collect_votes_won_iff rs (init_election_state t cand peers) hterm,
   fun rest hwon => collect_votes_append_won rest rs _ hwon⟩

/-- Witness for C6 at a concrete input. -/
theorem c6_election_majority_amended_witness :
    (init_election_state 2 "A" ["B", "C"]).majority_needed
      = ((["B", "C"] : List String).length + 1) / 2 + 1 ∧
    ((collect_votes (init_election_state 2 "A" ["B", "C"])
        [("B", some { term := 2, vote_granted := true, voter_id := "B" })]).1
        = ElectionResult.Won ↔
      max (((["B", "C"] : List String).length + 1) / 2 + 1) 2 ≤
        1 + distinct_new_grants ["A"]
          [("B", some { term := 2, vote_granted := true, voter_id := "B" })]) ∧
    (∀ rest, (collect_votes (init_election_state 2 "A" ["B", "C"])
        [("B", some { term := 2, vote_granted := true, voter_id := "B" })]).1
        = ElectionResult.Won →
      collect_votes (init_election_state 2 "A" ["B", "C"])
          ([("B", some { term := 2, vote_granted := true, voter_id := "B" })] ++ rest) =
        (ElectionResult.Won,
         (collect_votes (init_election_state 2 "A" ["B", "C"])
           [("B", some { term := 2, vote_granted := true, voter_id := "B" })]).2 ++ rest)) :=
  c6_election_majority_amended 2 "A" ["B", "C"]
    [("B", some { term := 2, vote_granted := true, voter_id := "B" })]
    (by
      intro pr hpr vr hvr
      rw [List.mem_singleton] at hpr
      subst hpr
      injection hvr with h2
      rw [← h2])

/-- Claim C7, counterexample: re-delivering an `AppendEntries` request that
carries one entry produces the same response, but the follower state after
the second delivery differs from the state after the first (the entry is
appended a second time). -/
theorem c7_redelivery_changes_state :
    (handle_append_entries (handle_append_entries exFollower exDupReq).2 exDupReq).1 =
      (handle_append_entries exFollower exDupReq).1 ∧
    (handle_append_entries (handle_append_entries exFollower exDupReq).2 exDupReq).2 ≠
      (handle_append_entries exFollower exDupReq).2 := by
  decide

/-- Claim C7 (amended): re-delivering the same entry-free `AppendEntries`
request (heartbeat) produces the same response and leaves the follower in
the same state after the second delivery as after the first; for requests
with entries the original claim fails (see the counterexample) because the
entries are appended again. -/
theorem c7_heartbeat_idempotent (node : RaftNode) (req : AppendEntriesRequest)
    (h : req.entries = []) :
    handle_append_entries (handle_append_entries node req).2 req =
      handle_append_entries node req := by
  by_cases hstale : req.term < node.current_term
  · rw [handle_append_entries_stale node req hstale]
    exact handle_append_entries_stale node req hstale
  · by_cases hlt : node.current_term < req.term
    · rw [handle_append_entries_high node req hlt]
      exact handle_after_core _ req rfl h
    · rw [handle_append_entries_same node req hlt hstale]
      exact handle_after_core node req (by omega) h

/-! ### concrete fixtures -/

/-- Witness for C7 at a concrete input. -/
theorem c7_heartbeat_idempotent_witness :
    handle_append_entries (handle_append_entries exFollower exStaleReq).2 exStaleReq =
      handle_append_entries exFollower exStaleReq :=
  c7_heartbeat_idempotent exFollower exStaleReq (by decide)

/-- Claim C8 (code bug, evaluated at the failing input): a leader with an
empty log proposing a config change with all transport sends succeeding gets
`Ok true` back, yet its log is still empty and its state machine holds no
entry for the key — the proposal is acknowledged without ever being appended
to the leader log, let alone applied. -/
theorem c8_propose_success_without_append :
    propose_config exProposeLeader "cluster.name" "x" (fun _ => true) =
      (Except.ok true, exProposeLeader) ∧
    exProposeLeader.log.entities = [] ∧
    exProposeLeader.state_machine = [] :=
  ⟨rfl, rfl, rfl⟩

/-- Claim C9 (confirmed): an `AppendEntries` request with a term strictly
below the node current term is answered with
`{term = currentTerm, success = false, conflictIndex = 0}` and leaves every
modelled component of the node state — term, votedFor, role, leaderId, log
and commitIndex — unchanged. -/
theorem c9_stale_term_append_entries (node : RaftNode) (req : AppendEntriesRequest)
    (h : req.term < node.current_term) :
    handle_append_entries node req =
      ({ term := node.current_term, success := false,
         follower_id := node.node_id, conflict_index := 0 }, node) :=
  handle_append_entries_stale node req h

/-- Witness for C9 at a concrete input. -/
theorem c9_stale_term_append_entries_witness :
    handle_append_entries exFollower exStaleReq =
      ({ term := exFollower.current_term, success := false,
         follower_id := exFollower.node_id, conflict_index := 0 }, exFollower) :=
  c9_stale_term_append_entries exFollower exStaleReq (by decide)

/-- Claim C10 (confirmed): once the handler grants a vote to a candidate —
leaving `votedFor = Some(C)` — a subsequent request in the same (post-grant)
term from a different candidate is answered with `voteGranted = false`. -/
theorem c10_single_vote_per_term (node : RaftNode) (r1 r2 : VoteRequest)
    (hgrant : (handle_vote_request node r1).1.vote_granted = true)
    (hterm : r2.term = (handle_vote_request node r1).2.current_term)
    (hcand : r2.candidate_id ≠ r1.candidate_id) :
    (handle_vote_request (handle_vote_request node r1).2 r2).1.vote_granted = false := by
  have hvf := vote_grant_sets_voted_for node r1 hgrant
  set s1 := (handle_vote_request node r1).2 with hs1
  have hlt : ¬ s1.current_term < r2.term := by omega
  have hcond : ¬ ((s1.voted_for = none ∨ s1.voted_for = some r2.candidate_id) ∧
      is_candidate_log_up_to_date s1 r2 = true) := by
    intro hx
    rcases hx.1 with hnone | hsome
    · rw [hvf] at hnone; exact Option.noConfusion hnone
    · rw [hvf] at hsome; injection hsome with h2; exact hcand h2.symm
  simp only [handle_vote_request, if_neg hlt]
  rw [if_pos (le_of_eq hterm.symm), if_neg hcond]

/-- Witness for C10 at a concrete input. -/
theorem c10_single_vote_per_term_witness :
    (handle_vote_request (handle_vote_request exEmptyFollower exVoteReq).2 exVoteReqB).1.vote_granted
      = false :=
  c10_single_vote_per_term exEmptyFollower exVoteReq exVoteReqB (by decide) (by decide) (by decide)
